import Mathlib

/-!
Verification of the airweave connection/credential endpoint layer.

The repository excerpt consists of the FastAPI route layer
(`backend/airweave/api/v1/endpoints/connections.py`), which delegates every
operation to an unseen `connection_service`, plus the ORM base declarations
(`backend/airweave/models/_base.py`).  The route layer and the ORM columns are
embedded directly from the source; the lifecycle semantics of the
`connection_service` operations is not in the excerpt and is modelled from the
specification (sections 3, 4, 6 and 7 of spec.md).
-/

namespace Airweave

abbrev OrgId := Nat
abbrev ConnId := Nat
abbrev CredId := Nat

/-- A requester identity as supplied by the auth layer: the user id and the
organization the user belongs to. -/
structure Requester where
  userId : Nat
  orgId : OrgId
deriving DecidableEq

/-- Embedding of `IntegrationType` from
`airweave/models/integration_credential.py` as used by the endpoints. -/
inductive IntegrationType
  | SOURCE
  | DESTINATION
  | EMBEDDING_MODEL
deriving DecidableEq

/-- Connection lifecycle status (spec section 3: enum ACTIVE, DISCONNECTED). -/
inductive ConnectionStatus
  | ACTIVE
  | DISCONNECTED
deriving DecidableEq

/-- Caller-facing error taxonomy (spec section 7). `ValidationError` carries the
field-level detail (the missing/malformed keys), as spec sections 4.1 and 7
require. -/
inductive ApiError
  | NotFound
  | Forbidden
  | ValidationError (missingKeys : List String)
  | UnknownIntegration
  | TokenInvalid
  | ConflictError
deriving DecidableEq

/-- Toy at-rest encryption of one secret value (reversible encoding standing in
for the real cipher; the model only needs that stored payloads are the image of
the raw fields under a fixed injection). -/
def encryptValue (v : String) : String :=
  String.mk v.data.reverse

/-- Decryption, inverse of `encryptValue`. -/
def decryptValue (v : String) : String :=
  String.mk v.data.reverse

/-- Encrypt every value of a raw auth-field mapping. -/
def encryptFields (raw : List (String × String)) : List (String × String) :=
  raw.map (fun p => (p.1, encryptValue p.2))

/-- Decrypt every value of a stored payload. -/
def decryptFields (payload : List (String × String)) : List (String × String) :=
  payload.map (fun p => (p.1, decryptValue p.2))

/-- Modelled from the spec: `IntegrationCredential` record (spec section 3);
the auth fields are held only as `encrypted_payload`. -/
structure IntegrationCredential where
  id : CredId
  integration_type : IntegrationType
  short_name : String
  encrypted_payload : List (String × String)
  organization_id : OrgId
deriving DecidableEq

/-- Modelled from the spec: `Connection` record (spec section 3). -/
structure Connection where
  id : ConnId
  name : String
  integration_type : IntegrationType
  short_name : String
  credential_id : CredId
  status : ConnectionStatus
  organization_id : OrgId
  created_at : Nat
  modified_at : Nat
deriving DecidableEq

/-- One field of an integration's declared auth-config schema (spec section
4.1: name plus required flag). -/
structure AuthField where
  key : String
  required : Bool
deriving DecidableEq

/-- One entry of the Integration Directory: the auth-config schema registered
for an (integration_type, short_name) pair (spec sections 2 and 4.1). -/
structure IntegrationSpec where
  integration_type : IntegrationType
  short_name : String
  auth_schema : List AuthField
deriving DecidableEq

/-- Modelled from the spec: the durable store that the unseen
`connection_service` operates on — connection registry, credential store and
integration directory (spec sections 2 and 5: durable storage is the single
source of truth).  `next_id` models the fresh-identifier supply and `now` the
clock. -/
structure Store where
  connections : List Connection
  credentials : List IntegrationCredential
  directory : List IntegrationSpec
  next_id : Nat
  now : Nat
deriving DecidableEq

/-- Lookup of a connection record by id in the registry. -/
def findConnection (s : Store) (cid : ConnId) : Option Connection :=
  s.connections.find? (fun c => c.id == cid)

/-- Lookup of a credential record by id in the credential store. -/
def findCredential (s : Store) (kid : CredId) : Option IntegrationCredential :=
  s.credentials.find? (fun k => k.id == kid)

/-- Modelled from the spec: the Access Control Gate (spec section 4.5) —
the requester must own the resource directly or via organization membership;
ownership is organization-scoped in the ORM, so the gate compares the
requester's organization with the resource's. -/
def authorize (r : Requester) (resource_org : OrgId) : Bool :=
  r.orgId == resource_org

/-- Modelled from the spec: `connection_service.get_connection` (body not in
src/; endpoint `get_connection` in connections.py delegates to it).  Spec
section 4.3: fails `NotFound` if absent or not visible to the requester —
absence and invisibility are intentionally indistinguishable (spec section
7). -/
def get_connection (s : Store) (cid : ConnId) (r : Requester) :
    Except ApiError Connection :=
  match findConnection s cid with
  | none => .error .NotFound
  | some c => if authorize r c.organization_id then .ok c else .error .NotFound

/-- Modelled from the spec: `connection_service.get_all_connections` (body not
in src/; endpoint `list_all_connected_integrations` delegates to it).  Spec
section 4.3 `listAll`: all connections owned by the requester across
integration types, in the registry's creation order; a pure read. -/
def get_all_connections (s : Store) (r : Requester) : List Connection :=
  s.connections.filter (fun c => authorize r c.organization_id)

/-- Modelled from the spec: `connection_service.get_connections_by_type` (body
not in src/; endpoint `list_connected_integrations` delegates to it).  Spec
section 4.3 `listByType`: the filtered subset of `listAll` with the requested
integration type. -/
def get_connections_by_type (s : Store) (t : IntegrationType) (r : Requester) :
    List Connection :=
  (get_all_connections s r).filter (fun c => c.integration_type == t)

/-- Modelled from the spec: `connection_service.get_connection_credentials`
(body not in src/; endpoint `get_connection_credentials` delegates to it).
Spec sections 4.2 and 6: authorized decrypt-on-read; `NotFound` if the
connection or its credential is absent or invisible.  A pure read: the store
is not returned because it is not changed. -/
def get_connection_credentials (s : Store) (cid : ConnId) (r : Requester) :
    Except ApiError (List (String × String)) :=
  match findConnection s cid with
  | none => .error .NotFound
  | some c =>
    if authorize r c.organization_id then
      match findCredential s c.credential_id with
      | none => .error .NotFound
      | some k => .ok (decryptFields k.encrypted_payload)
    else .error .NotFound

/-- Modelled from the spec: `connection_service.delete_connection` (body not in
src/; endpoint `delete_connection` delegates to it).  Spec section 4.3
`delete`: removes the Connection and cascades deletion of its backing
IntegrationCredential inside one transaction, returning the deleted record's
last-known state; fails `NotFound` (absent or invisible) leaving the store
unchanged. -/
def delete_connection (s : Store) (cid : ConnId) (r : Requester) :
    Store × Except ApiError Connection :=
  match findConnection s cid with
  | none => (s, .error .NotFound)
  | some c =>
    if authorize r c.organization_id then
      ({ s with
          connections := s.connections.filter (fun x => x.id != cid)
          credentials := s.credentials.filter (fun k => k.id != c.credential_id) },
        .ok c)
    else (s, .error .NotFound)

/-- Modelled from the spec: `connection_service.disconnect_source` (body not in
src/; endpoint `disconnect_source_connection` delegates to it).  Spec section
4.3 `disconnect`: transitions ACTIVE to DISCONNECTED; idempotent when already
disconnected (returns the current state with no error); fails `NotFound`
(absent or invisible) leaving the store unchanged. -/
def disconnect_source (s : Store) (cid : ConnId) (r : Requester) :
    Store × Except ApiError Connection :=
  match findConnection s cid with
  | none => (s, .error .NotFound)
  | some c =>
    if authorize r c.organization_id then
      if c.status == ConnectionStatus.DISCONNECTED then
        (s, .ok c)
      else
        let c' : Connection :=
          { c with status := ConnectionStatus.DISCONNECTED, modified_at := s.now }
        ({ s with
            connections := s.connections.map (fun x =>
              if x.id == cid then
                { x with status := ConnectionStatus.DISCONNECTED, modified_at := s.now }
              else x) },
          .ok c')
    else (s, .error .NotFound)

/-- A demo organization member owning the demo connection. -/
def demoOwner : Requester := ⟨1, 10⟩

/-- A demo requester from a different organization. -/
def demoOther : Requester := ⟨2, 20⟩

/-- A demo stored credential. -/
def demoCred : IntegrationCredential :=
  { id := 100
    integration_type := .SOURCE
    short_name := "slack"
    encrypted_payload := encryptFields [("token", "xoxb-demo")]
    organization_id := 10 }

/-- A demo active connection bound to `demoCred`. -/
def demoConn : Connection :=
  { id := 5
    name := "demo"
    integration_type := .SOURCE
    short_name := "slack"
    credential_id := 100
    status := .ACTIVE
    organization_id := 10
    created_at := 1
    modified_at := 1 }

/-- A demo store holding `demoConn` and `demoCred` and a directory entry for
slack with one required field. -/
def demoStore : Store :=
  { connections := [demoConn]
    credentials := [demoCred]
    directory := [⟨.SOURCE, "slack", [⟨"token", true⟩]⟩]
    next_id := 101
    now := 7 }

/-- Modelled from the spec: auth-config schema lookup for an
(integration_type, short_name) pair in the Integration Directory (spec
sections 2 and 4.1). -/
def lookupSchema (dir : List IntegrationSpec) (t : IntegrationType)
    (sn : String) : Option (List AuthField) :=
  (dir.find? (fun i => i.integration_type == t && i.short_name == sn)).map
    (fun i => i.auth_schema)

/-- Modelled from the spec: the required keys of the schema that are absent
from the submitted raw auth fields (spec section 4.1). -/
def missingRequired (schema : List AuthField) (raw : List (String × String)) :
    List String :=
  (schema.filter
    (fun f => f.required && !(raw.any (fun p => p.1 == f.key)))).map
    (fun f => f.key)

/-- Modelled from the spec: the Credential Validator (spec section 4.1, body
not in src/): fails `UnknownIntegration` when the pair is not registered in
the directory, and `ValidationError` listing the missing required keys
otherwise; side-effect free. -/
def validateFields (dir : List IntegrationSpec) (t : IntegrationType)
    (sn : String) (raw : List (String × String)) : Except ApiError Unit :=
  match lookupSchema dir t sn with
  | none => .error .UnknownIntegration
  | some schema =>
    match missingRequired schema raw with
    | [] => .ok ()
    | k :: ks => .error (.ValidationError (k :: ks))

/-- The caller-facing credential response (`schemas.IntegrationCredentialInDB`
of the endpoint): identifier and integration coordinates only — by
construction it has no field for the submitted secret values (spec section 6:
id only, no secret echo). -/
structure IntegrationCredentialInDB where
  id : CredId
  integration_type : IntegrationType
  short_name : String
deriving DecidableEq

/-- Modelled from the spec: `connection_service.create_integration_credential`
(body not in src/; endpoint `create_integration_credential` delegates to it).
Validates the raw auth fields against the directory schema, encrypts and
persists them and returns the credential id (spec sections 4.1, 4.2 and 6);
on a validation failure the store comes back unchanged — nothing is
persisted, not even partially. -/
def create_integration_credential (s : Store) (t : IntegrationType)
    (sn : String) (raw : List (String × String)) (r : Requester) :
    Store × Except ApiError IntegrationCredentialInDB :=
  match validateFields s.directory t sn raw with
  | .error e => (s, .error e)
  | .ok _ =>
    ({ s with
        credentials :=
          { id := s.next_id
            integration_type := t
            short_name := sn
            encrypted_payload := encryptFields raw
            organization_id := r.orgId } :: s.credentials
        next_id := s.next_id + 1 },
      .ok { id := s.next_id, integration_type := t, short_name := sn })

/-- Modelled from the spec: `connection_service.connect_with_direct_token`
(body not in src/; endpoint `connect_slack_with_token` delegates to it).
Spec section 4.4: with validation on, a live token check runs first and a
rejected token fails `TokenInvalid` with the store returned unchanged; on
success the credential wrapping the token and the connection bound to it are
created inside one transaction.  `tokenValid` stands for the outbound
live-validation call. -/
def connect_with_direct_token (tokenValid : String → Bool) (s : Store)
    (sn : String) (token : String) (name : Option String) (r : Requester)
    (validate_token : Bool) : Store × Except ApiError Connection :=
  if validate_token && !(tokenValid token) then
    (s, .error .TokenInvalid)
  else
    let cred : IntegrationCredential :=
      { id := s.next_id
        integration_type := .SOURCE
        short_name := sn
        encrypted_payload := encryptFields [("token", token)]
        organization_id := r.orgId }
    let conn : Connection :=
      { id := s.next_id + 1
        name := name.getD sn
        integration_type := .SOURCE
        short_name := sn
        credential_id := cred.id
        status := .ACTIVE
        organization_id := r.orgId
        created_at := s.now
        modified_at := s.now }
    ({ s with
        credentials := cred :: s.credentials
        connections := s.connections ++ [conn]
        next_id := s.next_id + 2 },
      .ok conn)

/-- The invocation record a route handler passes to the connection service's
direct-token operation. -/
structure DirectTokenCall where
  short_name : String
  token : String
  name : Option String
  user : Requester
  validate_token : Bool
deriving DecidableEq

/-- Embedding of the route handler `connect_slack_with_token` in
connections.py: it forwards its body parameters to
`connection_service.connect_with_direct_token(db, "slack", token, name, user,
validate_token=True)` — the short name is the literal "slack" and validation
is always on. -/
def connect_slack_with_token (token : String) (name : Option String)
    (user : Requester) : DirectTokenCall :=
  { short_name := "slack"
    token := token
    name := name
    user := user
    validate_token := true }

/-- The store transition induced by a direct-token call record: running the
modelled service operation on the arguments the handler built. -/
def run_direct_token_call (tokenValid : String → Bool) (s : Store)
    (call : DirectTokenCall) : Store × Except ApiError Connection :=
  connect_with_direct_token tokenValid s call.short_name call.token call.name
    call.user call.validate_token

/-- One lifecycle mutation on the registry, executed atomically (spec section
5: operations on the same identifier run inside a storage-layer transaction
boundary). -/
inductive LifecycleOp
  | disconnectOp (cid : ConnId) (r : Requester)
  | deleteOp (cid : ConnId) (r : Requester)
deriving DecidableEq

/-- Apply one atomic lifecycle operation; a failed operation leaves the store
unchanged (transaction rollback). -/
def applyOp (s : Store) : LifecycleOp → Store
  | .disconnectOp cid r => (disconnect_source s cid r).1
  | .deleteOp cid r => (delete_connection s cid r).1

/-- The final store after a schedule of atomic operations. -/
def runOps (s : Store) (ops : List LifecycleOp) : Store :=
  ops.foldl applyOp s

/-- Every store a schedule of atomic operations passes through, the initial
one included. -/
def traceStates (s : Store) : List LifecycleOp → List Store
  | [] => [s]
  | op :: ops => s :: traceStates (applyOp s op) ops

/-- The mixed state claim C8 rules out: connection `cid` still present with
status ACTIVE while its backing credential is gone. -/
def mixedAt (s : Store) (cid : ConnId) : Prop :=
  ∃ c : Connection, findConnection s cid = some c ∧
    c.status = ConnectionStatus.ACTIVE ∧
    findCredential s c.credential_id = none

/-- A row of a table derived from the ORM `Base` of models/_base.py; a column
holding `none` is SQL NULL (as a submitted row: the column was left unset). -/
structure BaseRow where
  id : Option Nat
  created_at : Option Nat
  modified_at : Option Nat
deriving DecidableEq

/-- Embedding of the `Base` column defaults in models/_base.py: `id` defaults
to `uuid.uuid4` (modelled by the supplied fresh identifier) and the two
timestamps default to `datetime.utcnow` (modelled by `now`); applying the
defaults fills every unset column. -/
def applyBaseDefaults (fresh now : Nat) (row : BaseRow) : BaseRow :=
  { id := some (row.id.getD fresh)
    created_at := some (row.created_at.getD now)
    modified_at := some (row.modified_at.getD now) }

/-- The NOT NULL constraints declared on `Base` (`nullable=False` on all three
columns). -/
def baseNotNull (row : BaseRow) : Bool :=
  row.id.isSome && row.created_at.isSome && row.modified_at.isSome

/-- A `Base`-derived table. -/
structure BaseTable where
  rows : List BaseRow
deriving DecidableEq

/-- Insert with the `Base` column semantics of models/_base.py: defaults are
applied first, then the NOT NULL constraints and the primary-key uniqueness
of `id` are enforced; a violating insert is rejected. -/
def insertBase (t : BaseTable) (fresh now : Nat) (row : BaseRow) :
    Option BaseTable :=
  let filled := applyBaseDefaults fresh now row
  if baseNotNull filled && !(t.rows.any (fun x => x.id == filled.id)) then
    some ⟨filled :: t.rows⟩
  else none

/-- Embedding of `onupdate=datetime.utcnow` on `modified_at`: every mutation
of a row rewrites `modified_at` to the update time. -/
def onUpdateBase (now : Nat) (row : BaseRow) : BaseRow :=
  { row with modified_at := some now }

/-- Update the row with the given id applying a column mutation `f`; the
`onupdate` hook on `modified_at` fires on the mutated row. -/
def updateBase (t : BaseTable) (now : Nat) (rid : Nat)
    (f : BaseRow → BaseRow) : BaseTable :=
  ⟨t.rows.map (fun x =>
    if x.id == some rid then onUpdateBase now (f x) else x)⟩

/-- A row of an `OrganizationBase`-derived table: the `Base` columns plus
`organization_id` (models/_base.py, `declared_attr organization_id`). -/
structure OrgRow where
  base : BaseRow
  organization_id : Option Nat
deriving DecidableEq

/-- An `OrganizationBase`-derived table together with the ids of the
`organization` table that the foreign key references. -/
structure OrgTable where
  rows : List OrgRow
  organization_ids : List Nat
deriving DecidableEq

/-- Insert with the `OrganizationBase` column declarations of models/_base.py:
`organization_id` is `nullable=False` with no default, and
`ForeignKey("organization.id")` requires the value to reference an existing
organization row; the inherited `Base` columns behave as in `insertBase`. -/
def insertOrgRow (t : OrgTable) (fresh now : Nat) (row : OrgRow) :
    Option OrgTable :=
  let filled : OrgRow :=
    { base := applyBaseDefaults fresh now row.base
      organization_id := row.organization_id }
  match filled.organization_id with
  | none => none
  | some oid =>
    if t.organization_ids.contains oid &&
        !(t.rows.any (fun x => x.base.id == filled.base.id)) then
      some { t with rows := filled :: t.rows }
    else none

/-- Helper: `find?` commutes with mapping a function that does not change the
predicate under scrutiny. -/
theorem find_map_of_pres {α : Type} (f : α → α) (p : α → Bool)
    (hp : ∀ x, p (f x) = p x) (l : List α) :
    (l.map f).find? p = (l.find? p).map f := by
  induction l with
  | nil => rfl
  | cons a l ih =>
    simp only [List.map_cons, List.find?_cons, hp a]
    cases h : p a <;> simp [ih]

/-- Helper: filtering by a predicate that excludes every element matching `p`
leaves no `find?` result for `p`. -/
theorem find_filter_none {α : Type} (p q : α → Bool) (l : List α)
    (h : ∀ x, q x = true → p x = false) :
    (l.filter q).find? p = none := by
  rw [List.find?_eq_none]
  intro x hx
  rcases List.mem_filter.mp hx with ⟨-, hq⟩
  simp [h x hq]

/-- Claim C1: a connection is returned to a requester of the owning
organization, a requester of any other organization receives `Forbidden` or
`NotFound`, and the failure for an invisible resource is the same value
(`NotFound`) as the failure for an absent resource, so existence is not
leaked. -/
theorem get_connection_access_control (s : Store) (cid : ConnId)
    (c : Connection) (owner other : Requester)
    (hfind : findConnection s cid = some c)
    (howner : owner.orgId = c.organization_id)
    (hother : other.orgId ≠ c.organization_id) :
    get_connection s cid owner = .ok c ∧
    (get_connection s cid other = .error ApiError.NotFound ∨
      get_connection s cid other = .error ApiError.Forbidden) ∧
    (∀ (s₂ : Store) (cid₂ : ConnId) (r₂ : Requester),
      findConnection s₂ cid₂ = none →
      get_connection s₂ cid₂ r₂ = .error ApiError.NotFound) := by
  refine ⟨?_, ?_, ?_⟩
  · simp [get_connection, hfind, authorize, howner]
  · left
    simp [get_connection, hfind, authorize, hother]
  · intro s₂ cid₂ r₂ hnone
    simp [get_connection, hnone]

/-- Witness for C1 at the demo store. -/
theorem get_connection_access_control_witness :
    get_connection demoStore 5 demoOwner = .ok demoConn ∧
    (get_connection demoStore 5 demoOther = .error ApiError.NotFound ∨
      get_connection demoStore 5 demoOther = .error ApiError.Forbidden) ∧
    (∀ (s₂ : Store) (cid₂ : ConnId) (r₂ : Requester),
      findConnection s₂ cid₂ = none →
      get_connection s₂ cid₂ r₂ = .error ApiError.NotFound) :=
  get_connection_access_control demoStore 5 demoConn demoOwner demoOther
    rfl rfl (by decide)

/-- Helper: disconnecting an already disconnected owned connection returns the
current record with no error and leaves the store untouched. -/
theorem disconnect_source_of_disconnected (s : Store) (cid : ConnId)
    (r : Requester) (c : Connection)
    (hfind : findConnection s cid = some c)
    (hauth : authorize r c.organization_id = true)
    (hstat : c.status = ConnectionStatus.DISCONNECTED) :
    disconnect_source s cid r = (s, .ok c) := by
  simp [disconnect_source, hfind, hauth, hstat]

/-- Helper: disconnecting an active owned connection flips its status to
DISCONNECTED in the registry and returns the updated record. -/
theorem disconnect_source_of_active (s : Store) (cid : ConnId)
    (r : Requester) (c : Connection)
    (hfind : findConnection s cid = some c)
    (hauth : authorize r c.organization_id = true)
    (hstat : c.status = ConnectionStatus.ACTIVE) :
    disconnect_source s cid r =
      ({ s with connections := s.connections.map (fun x =>
          if x.id == cid then
            { x with
                status := ConnectionStatus.DISCONNECTED
                modified_at := s.now }
          else x) },
        .ok { c with
                status := ConnectionStatus.DISCONNECTED
                modified_at := s.now }) := by
  simp [disconnect_source, hfind, hauth, hstat]

/-- Claim C2: deleting an owned connection removes both the Connection record
and its backing IntegrationCredential, returns the deleted record's last-known
state, and a subsequent credentials read on the same connection id fails
`NotFound`. -/
theorem delete_connection_cascades (s : Store) (cid : ConnId)
    (c : Connection) (r : Requester)
    (hfind : findConnection s cid = some c)
    (hauth : authorize r c.organization_id = true) :
    ∃ s' : Store,
      delete_connection s cid r = (s', Except.ok c) ∧
      findConnection s' cid = none ∧
      findCredential s' c.credential_id = none ∧
      get_connection_credentials s' cid r = .error ApiError.NotFound := by
  refine ⟨{ s with
      connections := s.connections.filter (fun x => x.id != cid)
      credentials :=
        s.credentials.filter (fun k => k.id != c.credential_id) },
    ?_, ?_, ?_, ?_⟩
  · simp only [delete_connection, hfind, hauth, if_true]
  · exact find_filter_none _ _ _ (by intro x hq; simpa using hq)
  · exact find_filter_none _ _ _ (by intro x hq; simpa using hq)
  · have hnone : findConnection
        ({ s with
            connections := s.connections.filter (fun x => x.id != cid)
            credentials :=
              s.credentials.filter (fun k => k.id != c.credential_id) } : Store)
        cid = none :=
      find_filter_none _ _ _ (by intro x hq; simpa using hq)
    simp [get_connection_credentials, hnone]

/-- Witness for C2 at the demo store. -/
theorem delete_connection_cascades_witness :
    ∃ s' : Store,
      delete_connection demoStore 5 demoOwner = (s', Except.ok demoConn) ∧
      findConnection s' 5 = none ∧
      findCredential s' demoConn.credential_id = none ∧
      get_connection_credentials s' 5 demoOwner = .error ApiError.NotFound :=
  delete_connection_cascades demoStore 5 demoConn demoOwner rfl rfl

/-- Claim C5: disconnecting an owned connection succeeds with status
DISCONNECTED, and a second disconnect on the resulting store again returns
status DISCONNECTED with no error, leaving the store as it was after the
first call. -/
theorem disconnect_source_idempotent (s : Store) (cid : ConnId)
    (c : Connection) (r : Requester)
    (hfind : findConnection s cid = some c)
    (hauth : authorize r c.organization_id = true) :
    ∃ (s₁ : Store) (c₁ : Connection),
      disconnect_source s cid r = (s₁, Except.ok c₁) ∧
      c₁.status = ConnectionStatus.DISCONNECTED ∧
      ∃ c₂ : Connection,
        disconnect_source s₁ cid r = (s₁, Except.ok c₂) ∧
        c₂.status = ConnectionStatus.DISCONNECTED := by
  have hfind' : s.connections.find? (fun x => x.id == cid) = some c := hfind
  have hcid0 := List.find?_some hfind'
  have hcid : (c.id == cid) = true := by simpa using hcid0
  cases hstat : c.status with
  | DISCONNECTED =>
    exact ⟨s, c, disconnect_source_of_disconnected s cid r c hfind hauth hstat,
      hstat, c, disconnect_source_of_disconnected s cid r c hfind hauth hstat,
      hstat⟩
  | ACTIVE =>
    have hpres : ∀ x : Connection,
        (((if x.id == cid then
            { x with
                status := ConnectionStatus.DISCONNECTED
                modified_at := s.now }
          else x) : Connection).id == cid) = (x.id == cid) := by
      intro x
      by_cases hx : (x.id == cid) = true <;> simp [hx]
    have hfind₁ : findConnection
        ({ s with connections := s.connections.map (fun x =>
            if x.id == cid then
              { x with
                  status := ConnectionStatus.DISCONNECTED
                  modified_at := s.now }
            else x) } : Store) cid
          = some { c with
                    status := ConnectionStatus.DISCONNECTED
                    modified_at := s.now } := by
      show (s.connections.map _).find? _ = _
      rw [find_map_of_pres _ _ hpres, hfind']
      simp [hcid]
      intro hne
      exact absurd (by simpa using hcid) hne
    refine ⟨_, _, disconnect_source_of_active s cid r c hfind hauth hstat,
      rfl, ?_⟩
    exact ⟨_, disconnect_source_of_disconnected _ cid r _ hfind₁ hauth rfl, rfl⟩

/-- Witness for C5 at the demo store. -/
theorem disconnect_source_idempotent_witness :
    ∃ (s₁ : Store) (c₁ : Connection),
      disconnect_source demoStore 5 demoOwner = (s₁, Except.ok c₁) ∧
      c₁.status = ConnectionStatus.DISCONNECTED ∧
      ∃ c₂ : Connection,
        disconnect_source s₁ 5 demoOwner = (s₁, Except.ok c₂) ∧
        c₂.status = ConnectionStatus.DISCONNECTED :=
  disconnect_source_idempotent demoStore 5 demoConn demoOwner rfl rfl

/-- Claim C6: `get_all_connections` returns exactly the requester's
connections, preserving the registry's creation-time order, and
`get_connections_by_type` is exactly its subset with the requested
integration type, in the same order; both are pure reads and return the
stored records unchanged. -/
theorem list_connections_exact (s : Store) (r : Requester)
    (t : IntegrationType)
    (horder : s.connections.Pairwise (fun a b => a.created_at ≤ b.created_at)) :
    (∀ c : Connection, c ∈ get_all_connections s r ↔
        (c ∈ s.connections ∧ c.organization_id = r.orgId)) ∧
    (get_all_connections s r).Pairwise
      (fun a b => a.created_at ≤ b.created_at) ∧
    (∀ c : Connection, c ∈ get_connections_by_type s t r ↔
        (c ∈ get_all_connections s r ∧ c.integration_type = t)) ∧
    (get_connections_by_type s t r).Pairwise
      (fun a b => a.created_at ≤ b.created_at) := by
  have hall : (get_all_connections s r).Pairwise
      (fun a b => a.created_at ≤ b.created_at) :=
    horder.sublist (List.filter_sublist s.connections)
  refine ⟨?_, hall, ?_, hall.sublist (List.filter_sublist _)⟩
  · intro c
    simp only [get_all_connections, List.mem_filter, authorize, beq_iff_eq]
    exact and_congr_right fun _ => eq_comm
  · intro c
    simp [get_connections_by_type, List.mem_filter]

/-- Witness for C6 at the demo store. -/
theorem list_connections_exact_witness :
    (∀ c : Connection, c ∈ get_all_connections demoStore demoOwner ↔
        (c ∈ demoStore.connections ∧ c.organization_id = demoOwner.orgId)) ∧
    (get_all_connections demoStore demoOwner).Pairwise
      (fun a b => a.created_at ≤ b.created_at) ∧
    (∀ c : Connection,
        c ∈ get_connections_by_type demoStore IntegrationType.SOURCE demoOwner ↔
        (c ∈ get_all_connections demoStore demoOwner ∧
          c.integration_type = IntegrationType.SOURCE)) ∧
    (get_connections_by_type demoStore IntegrationType.SOURCE demoOwner).Pairwise
      (fun a b => a.created_at ≤ b.created_at) :=
  list_connections_exact demoStore demoOwner IntegrationType.SOURCE
    (List.pairwise_singleton _ _)

/-- Claim C4: creating a credential whose raw fields lack a required key of
the integration's declared schema fails with `ValidationError` listing every
missing required key and returns the store exactly as it was — nothing is
persisted; an unregistered (integration_type, short_name) pair fails with
`UnknownIntegration` instead. -/
theorem create_credential_validation (s : Store) (t : IntegrationType)
    (sn : String) (raw : List (String × String)) (r : Requester)
    (schema : List AuthField)
    (hschema : lookupSchema s.directory t sn = some schema)
    (hmiss : missingRequired schema raw ≠ []) :
    create_integration_credential s t sn raw r =
      (s, .error (.ValidationError (missingRequired schema raw))) ∧
    (∀ f ∈ schema, f.required = true → (∀ p ∈ raw, p.1 ≠ f.key) →
        f.key ∈ missingRequired schema raw) ∧
    (∀ (s₂ : Store) (t₂ : IntegrationType) (sn₂ : String)
        (raw₂ : List (String × String)) (r₂ : Requester),
        lookupSchema s₂.directory t₂ sn₂ = none →
        create_integration_credential s₂ t₂ sn₂ raw₂ r₂ =
          (s₂, .error ApiError.UnknownIntegration)) := by
  refine ⟨?_, ?_, ?_⟩
  · cases hmq : missingRequired schema raw with
    | nil => exact absurd hmq hmiss
    | cons k ks =>
      simp [create_integration_credential, validateFields, hschema, hmq]
  · intro f hf hreq habs
    refine List.mem_map.mpr ⟨f, List.mem_filter.mpr ⟨hf, ?_⟩, rfl⟩
    have hany : (raw.any fun p => p.1 == f.key) = false := by
      rw [List.any_eq_false]
      intro p hp
      simpa using habs p hp
    simp [hreq, hany]
  · intro s₂ t₂ sn₂ raw₂ r₂ hnone
    simp [create_integration_credential, validateFields, hnone]

/-- Witness for C4: the demo directory requires a "token" field for slack, so
submitting only an unrelated key is rejected with that key reported. -/
theorem create_credential_validation_witness :
    create_integration_credential demoStore IntegrationType.SOURCE "slack"
        [("other", "x")] demoOwner =
      (demoStore, .error (.ValidationError
        (missingRequired [⟨"token", true⟩] [("other", "x")]))) ∧
    (∀ f ∈ ([⟨"token", true⟩] : List AuthField), f.required = true →
        (∀ p ∈ ([("other", "x")] : List (String × String)), p.1 ≠ f.key) →
        f.key ∈ missingRequired [⟨"token", true⟩] [("other", "x")]) ∧
    (∀ (s₂ : Store) (t₂ : IntegrationType) (sn₂ : String)
        (raw₂ : List (String × String)) (r₂ : Requester),
        lookupSchema s₂.directory t₂ sn₂ = none →
        create_integration_credential s₂ t₂ sn₂ raw₂ r₂ =
          (s₂, .error ApiError.UnknownIntegration)) :=
  create_credential_validation demoStore IntegrationType.SOURCE "slack"
    [("other", "x")] demoOwner [⟨"token", true⟩] rfl (by decide)

/-- Helper: whether some raw field carries a given key depends only on the
key list of the raw fields. -/
theorem any_key_eq (raw₁ raw₂ : List (String × String))
    (hkeys : raw₁.map Prod.fst = raw₂.map Prod.fst) (k : String) :
    (raw₁.any fun p => p.1 == k) = (raw₂.any fun p => p.1 == k) := by
  have h : ∀ raw : List (String × String),
      (raw.any fun p => p.1 == k) =
        ((raw.map Prod.fst).any fun x => x == k) := by
    intro raw
    induction raw with
    | nil => rfl
    | cons a l ih => simp [ih]
  rw [h raw₁, h raw₂, hkeys]

/-- Helper: the validator's missing-key list depends only on the keys of the
submitted raw fields, never on the secret values. -/
theorem missingRequired_keys_only (schema : List AuthField)
    (raw₁ raw₂ : List (String × String))
    (hkeys : raw₁.map Prod.fst = raw₂.map Prod.fst) :
    missingRequired schema raw₁ = missingRequired schema raw₂ := by
  unfold missingRequired
  congr 1
  apply List.filter_congr
  intro f hf
  rw [any_key_eq raw₁ raw₂ hkeys f.key]

/-- Claim C7: the caller-visible outcome of CreateCredential — the response
on success and the error otherwise — is identical for any two submissions
with the same keys, whatever the secret values are, so neither responses nor
error messages echo the submitted secrets; the success response consists of
the credential identifier and the integration coordinates only.  Plaintext
leaves the store solely through the authorized decrypt-on-read
`get_connection_credentials`. -/
theorem create_credential_no_secret_exposure (s : Store)
    (t : IntegrationType) (sn : String) (r : Requester)
    (raw₁ raw₂ : List (String × String))
    (hkeys : raw₁.map Prod.fst = raw₂.map Prod.fst) :
    (create_integration_credential s t sn raw₁ r).2 =
      (create_integration_credential s t sn raw₂ r).2 ∧
    (∀ resp : IntegrationCredentialInDB,
        (create_integration_credential s t sn raw₁ r).2 = .ok resp →
        resp = { id := s.next_id, integration_type := t, short_name := sn })
    := by
  constructor
  · cases hls : lookupSchema s.directory t sn with
    | none => simp [create_integration_credential, validateFields, hls]
    | some schema =>
      have hm := missingRequired_keys_only schema raw₁ raw₂ hkeys
      cases hmq : missingRequired schema raw₁ with
      | nil =>
        have hmq₂ : missingRequired schema raw₂ = [] := hm.symm.trans hmq
        simp [create_integration_credential, validateFields, hls, hmq, hmq₂]
      | cons a l =>
        have hmq₂ : missingRequired schema raw₂ = a :: l := hm.symm.trans hmq
        simp [create_integration_credential, validateFields, hls, hmq, hmq₂]
  · intro resp h
    cases hls : lookupSchema s.directory t sn with
    | none => simp [create_integration_credential, validateFields, hls] at h
    | some schema =>
      cases hmq : missingRequired schema raw₁ with
      | nil =>
        simp [create_integration_credential, validateFields, hls, hmq] at h
        exact h.symm
      | cons a l =>
        simp [create_integration_credential, validateFields, hls, hmq] at h

/-- Witness for C7: two submissions differing only in the secret value give
the same caller-visible outcome. -/
theorem create_credential_no_secret_exposure_witness :
    (create_integration_credential demoStore IntegrationType.SOURCE "slack"
        [("token", "secretA")] demoOwner).2 =
      (create_integration_credential demoStore IntegrationType.SOURCE "slack"
        [("token", "secretB")] demoOwner).2 ∧
    (∀ resp : IntegrationCredentialInDB,
        (create_integration_credential demoStore IntegrationType.SOURCE
            "slack" [("token", "secretA")] demoOwner).2 = .ok resp →
        resp = { id := demoStore.next_id
                 integration_type := IntegrationType.SOURCE
                 short_name := "slack" }) :=
  create_credential_no_secret_exposure demoStore IntegrationType.SOURCE
    "slack" demoOwner [("token", "secretA")] [("token", "secretB")] rfl

/-- Claim C3: with validation enabled, a rejected token makes ConnectWithToken
fail `TokenInvalid` with the store returned exactly unchanged — no Connection
and no IntegrationCredential becomes visible; with an accepted token the
operation returns one store in which the new connection and the credential it
is bound to are both present — the pair appears atomically. -/
theorem connect_with_token_atomicity (tokenValid : String → Bool) (s : Store)
    (sn token : String) (name : Option String) (r : Requester)
    (hfresh : ∀ c ∈ s.connections, c.id < s.next_id) :
    (tokenValid token = false →
        connect_with_direct_token tokenValid s sn token name r true =
          (s, .error ApiError.TokenInvalid)) ∧
    (tokenValid token = true →
        ∃ (s' : Store) (conn : Connection) (cred : IntegrationCredential),
          connect_with_direct_token tokenValid s sn token name r true =
            (s', .ok conn) ∧
          findConnection s' conn.id = some conn ∧
          findCredential s' conn.credential_id = some cred ∧
          cred.encrypted_payload = encryptFields [("token", token)] ∧
          conn.status = ConnectionStatus.ACTIVE) := by
  constructor
  · intro hbad
    simp [connect_with_direct_token, hbad]
  · intro hgood
    have hnone : s.connections.find?
        (fun x => x.id == s.next_id + 1) = none := by
      rw [List.find?_eq_none]
      intro x hx
      have hlt := hfresh x hx
      simp only [beq_iff_eq]
      intro heq
      rw [heq] at hlt
      exact absurd hlt (Nat.not_lt.mpr (Nat.le_succ _))
    refine ⟨{ s with
        credentials :=
          { id := s.next_id
            integration_type := .SOURCE
            short_name := sn
            encrypted_payload := encryptFields [("token", token)]
            organization_id := r.orgId } :: s.credentials
        connections := s.connections ++
          [{ id := s.next_id + 1
             name := name.getD sn
             integration_type := .SOURCE
             short_name := sn
             credential_id := s.next_id
             status := .ACTIVE
             organization_id := r.orgId
             created_at := s.now
             modified_at := s.now }]
        next_id := s.next_id + 2 },
      { id := s.next_id + 1
        name := name.getD sn
        integration_type := .SOURCE
        short_name := sn
        credential_id := s.next_id
        status := .ACTIVE
        organization_id := r.orgId
        created_at := s.now
        modified_at := s.now },
      { id := s.next_id
        integration_type := .SOURCE
        short_name := sn
        encrypted_payload := encryptFields [("token", token)]
        organization_id := r.orgId },
      ?_, ?_, ?_, rfl, rfl⟩
    · simp [connect_with_direct_token, hgood]
    · show (s.connections ++ _).find? _ = _
      rw [List.find?_append, hnone]
      simp [List.find?]
    · simp [findCredential, List.find?]

/-- Witness for C3: at the demo store every stored connection id is below the
fresh-id counter, so the theorem applies. -/
theorem connect_with_token_atomicity_witness :
    ((fun tok => tok == "good-token") "bad" = false →
        connect_with_direct_token (fun tok => tok == "good-token") demoStore
            "slack" "bad" none demoOwner true =
          (demoStore, .error ApiError.TokenInvalid)) ∧
    ((fun tok => tok == "good-token") "bad" = true →
        ∃ (s' : Store) (conn : Connection) (cred : IntegrationCredential),
          connect_with_direct_token (fun tok => tok == "good-token") demoStore
              "slack" "bad" none demoOwner true =
            (s', .ok conn) ∧
          findConnection s' conn.id = some conn ∧
          findCredential s' conn.credential_id = some cred ∧
          cred.encrypted_payload = encryptFields [("token", "bad")] ∧
          conn.status = ConnectionStatus.ACTIVE) :=
  connect_with_token_atomicity (fun tok => tok == "good-token") demoStore
    "slack" "bad" none demoOwner (by decide)

/-- Claim C9: the direct-token route handler always invokes the connection
service with the integration short name fixed to the literal "slack" and with
`validate_token=True`, for every token, name and user; the transition it
induces is exactly the service operation at those fixed arguments, so no
caller of this endpoint can create an unvalidated credential or target a
different integration through it. -/
theorem connect_slack_with_token_fixed_args (token : String)
    (name : Option String) (user : Requester) :
    (connect_slack_with_token token name user).short_name = "slack" ∧
    (connect_slack_with_token token name user).validate_token = true ∧
    (∀ (tokenValid : String → Bool) (s : Store),
        run_direct_token_call tokenValid s
            (connect_slack_with_token token name user) =
          connect_with_direct_token tokenValid s "slack" token name user
            true) :=
  ⟨rfl, rfl, fun _ _ => rfl⟩

/-- Helper: deleting an owned connection filters it and its backing credential
out of the store in one atomic step. -/
theorem delete_connection_of_found (s : Store) (cid : ConnId) (r : Requester)
    (c : Connection)
    (hfind : findConnection s cid = some c)
    (hauth : authorize r c.organization_id = true) :
    delete_connection s cid r =
      ({ s with
          connections := s.connections.filter (fun x => x.id != cid)
          credentials :=
            s.credentials.filter (fun k => k.id != c.credential_id) },
        .ok c) := by
  simp only [delete_connection, hfind, hauth, if_true]

/-- Helper: disconnect on an absent connection id fails NotFound and leaves
the store unchanged. -/
theorem disconnect_source_of_absent (s : Store) (cid : ConnId)
    (r : Requester)
    (hnone : findConnection s cid = none) :
    disconnect_source s cid r = (s, .error .NotFound) := by
  simp [disconnect_source, hnone]

/-- Helper: after a delete of `cid`, no connection with that id remains. -/
theorem findConnection_after_delete (s : Store) (cid : ConnId)
    (kid : CredId) :
    findConnection
      ({ s with
          connections := s.connections.filter (fun x => x.id != cid)
          credentials := s.credentials.filter (fun k => k.id != kid) } : Store)
      cid = none :=
  find_filter_none _ _ _ (by intro x hq; simpa using hq)

/-- Helper: flipping the status of connection `cid` in the registry leaves it
findable, with the flipped status. -/
theorem findConnection_after_disconnect_map (s : Store) (cid : ConnId)
    (c : Connection)
    (hfind : findConnection s cid = some c) :
    findConnection
      ({ s with connections := s.connections.map (fun x =>
          if x.id == cid then
            { x with
                status := ConnectionStatus.DISCONNECTED
                modified_at := s.now }
          else x) } : Store) cid
        = some { c with
                  status := ConnectionStatus.DISCONNECTED
                  modified_at := s.now } := by
  have hfind' : s.connections.find? (fun x => x.id == cid) = some c := hfind
  have hcid0 := List.find?_some hfind'
  have hcid : (c.id == cid) = true := by simpa using hcid0
  have hpres : ∀ x : Connection,
      (((if x.id == cid then
          { x with
              status := ConnectionStatus.DISCONNECTED
              modified_at := s.now }
        else x) : Connection).id == cid) = (x.id == cid) := by
    intro x
    by_cases hx : (x.id == cid) = true <;> simp [hx]
  show (s.connections.map _).find? _ = _
  rw [find_map_of_pres _ _ hpres, hfind']
  simp [hcid]
  intro hne
  exact absurd (by simpa using hcid) hne

/-- Claim C8: with disconnect and delete running as atomic operations on the
store (the spec's storage-layer transaction boundary), both interleavings of
a disconnect and a delete on the same owned connection pass only through
states where the connection is never ACTIVE with its credential missing, and
both end with the connection removed — disconnected-then-removed or removed
directly, never a mixed state. -/
theorem disconnect_delete_linearizable (s : Store) (cid : ConnId)
    (r : Requester) (c : Connection) (k : IntegrationCredential)
    (hfind : findConnection s cid = some c)
    (hauth : authorize r c.organization_id = true)
    (hcred : findCredential s c.credential_id = some k) :
    (∀ s' ∈ traceStates s
        [LifecycleOp.disconnectOp cid r, LifecycleOp.deleteOp cid r],
        ¬ mixedAt s' cid) ∧
    findConnection
      (runOps s [LifecycleOp.disconnectOp cid r, LifecycleOp.deleteOp cid r])
      cid = none ∧
    (∀ s' ∈ traceStates s
        [LifecycleOp.deleteOp cid r, LifecycleOp.disconnectOp cid r],
        ¬ mixedAt s' cid) ∧
    findConnection
      (runOps s [LifecycleOp.deleteOp cid r, LifecycleOp.disconnectOp cid r])
      cid = none := by
  have hmix0 : ¬ mixedAt s cid := by
    rintro ⟨c', hf', -, hk'⟩
    rw [hfind] at hf'
    injection hf' with h
    subst h
    exact Option.noConfusion (hcred.symm.trans hk')
  have hdel := delete_connection_of_found s cid r c hfind hauth
  have hnone_del :
      findConnection (applyOp s (LifecycleOp.deleteOp cid r)) cid = none := by
    show findConnection (delete_connection s cid r).1 cid = none
    rw [hdel]
    exact findConnection_after_delete s cid c.credential_id
  have hmix_del : ¬ mixedAt (applyOp s (LifecycleOp.deleteOp cid r)) cid := by
    rintro ⟨c', hf', -, -⟩
    rw [hnone_del] at hf'
    exact Option.noConfusion hf'
  have ht₂ : applyOp (applyOp s (LifecycleOp.deleteOp cid r))
      (LifecycleOp.disconnectOp cid r) =
        applyOp s (LifecycleOp.deleteOp cid r) := by
    show (disconnect_source _ cid r).1 = _
    rw [disconnect_source_of_absent _ cid r hnone_del]
  have hdis_main :
      (¬ mixedAt (applyOp s (LifecycleOp.disconnectOp cid r)) cid) ∧
      findConnection
        (applyOp (applyOp s (LifecycleOp.disconnectOp cid r))
          (LifecycleOp.deleteOp cid r)) cid = none := by
    cases hstat : c.status with
    | DISCONNECTED =>
      have h1 : applyOp s (LifecycleOp.disconnectOp cid r) = s := by
        show (disconnect_source s cid r).1 = s
        rw [disconnect_source_of_disconnected s cid r c hfind hauth hstat]
      rw [h1]
      exact ⟨hmix0, hnone_del⟩
    | ACTIVE =>
      have h1 : applyOp s (LifecycleOp.disconnectOp cid r) =
          { s with connections := s.connections.map (fun x =>
              if x.id == cid then
                { x with
                    status := ConnectionStatus.DISCONNECTED
                    modified_at := s.now }
              else x) } := by
        show (disconnect_source s cid r).1 = _
        rw [disconnect_source_of_active s cid r c hfind hauth hstat]
      rw [h1]
      have hfind₁ := findConnection_after_disconnect_map s cid c hfind
      constructor
      · rintro ⟨c', hf', hstat', -⟩
        rw [hfind₁] at hf'
        injection hf' with h
        subst h
        simp at hstat'
      · have hdel₁ := delete_connection_of_found _ cid r _ hfind₁ hauth
        show findConnection (delete_connection _ cid r).1 cid = none
        rw [hdel₁]
        exact findConnection_after_delete _ cid _
  refine ⟨?_, hdis_main.2, ?_, ?_⟩
  · intro s' hs'
    simp only [traceStates, List.mem_cons, List.not_mem_nil, or_false] at hs'
    rcases hs' with rfl | rfl | rfl
    · exact hmix0
    · exact hdis_main.1
    · rintro ⟨c', hf', -, -⟩
      rw [hdis_main.2] at hf'
      exact Option.noConfusion hf'
  · intro s' hs'
    simp only [traceStates, List.mem_cons, List.not_mem_nil, or_false] at hs'
    rcases hs' with rfl | rfl | rfl
    · exact hmix0
    · exact hmix_del
    · rw [ht₂]
      exact hmix_del
  · show findConnection (applyOp (applyOp s (LifecycleOp.deleteOp cid r))
        (LifecycleOp.disconnectOp cid r)) cid = none
    rw [ht₂]
    exact hnone_del

/-- Witness for C8 at the demo store. -/
theorem disconnect_delete_linearizable_witness :
    (∀ s' ∈ traceStates demoStore
        [LifecycleOp.disconnectOp 5 demoOwner, LifecycleOp.deleteOp 5 demoOwner],
        ¬ mixedAt s' 5) ∧
    findConnection
      (runOps demoStore
        [LifecycleOp.disconnectOp 5 demoOwner, LifecycleOp.deleteOp 5 demoOwner])
      5 = none ∧
    (∀ s' ∈ traceStates demoStore
        [LifecycleOp.deleteOp 5 demoOwner, LifecycleOp.disconnectOp 5 demoOwner],
        ¬ mixedAt s' 5) ∧
    findConnection
      (runOps demoStore
        [LifecycleOp.deleteOp 5 demoOwner, LifecycleOp.disconnectOp 5 demoOwner])
      5 = none :=
  disconnect_delete_linearizable demoStore 5 demoOwner demoConn demoCred
    rfl rfl rfl

/-- Claim C10: a `Base`-derived table whose rows all satisfy the NOT NULL
constraints and have distinct ids keeps both properties across an insert (the
column defaults fill `id` with the fresh UUID and the timestamps with now);
every row of an updated table is either untouched or carries
`modified_at = now` by the `onupdate` hook; and every row an
`OrganizationBase` insert adds holds a non-null `organization_id` referencing
an existing organization. -/
theorem base_columns_invariants (t : BaseTable) (fresh now : Nat)
    (row : BaseRow) (t' : BaseTable)
    (hall : ∀ x ∈ t.rows, baseNotNull x = true)
    (hnodup : (t.rows.map (fun x => x.id)).Nodup)
    (hins : insertBase t fresh now row = some t') :
    (∀ x ∈ t'.rows, baseNotNull x = true) ∧
    ((t'.rows.map (fun x => x.id)).Nodup) ∧
    (row.id = none → (applyBaseDefaults fresh now row).id = some fresh) ∧
    (∀ (tu : BaseTable) (now₂ rid : Nat) (f : BaseRow → BaseRow)
        (x : BaseRow), x ∈ (updateBase tu now₂ rid f).rows →
        x ∈ tu.rows ∨ x.modified_at = some now₂) ∧
    (∀ (ot : OrgTable) (fr₂ now₂ : Nat) (orow : OrgRow) (ot' : OrgTable),
        insertOrgRow ot fr₂ now₂ orow = some ot' →
        ∀ y ∈ ot'.rows, y ∈ ot.rows ∨
          ∃ oid, y.organization_id = some oid ∧
            oid ∈ ot.organization_ids) := by
  by_cases hc : (baseNotNull (applyBaseDefaults fresh now row) &&
      !(t.rows.any (fun x => x.id ==
        (applyBaseDefaults fresh now row).id))) = true
  case neg =>
    simp only [insertBase] at hins
    rw [if_neg hc] at hins
    exact Option.noConfusion hins
  case pos =>
    simp only [insertBase] at hins
    rw [if_pos hc] at hins
    injection hins with h
    subst h
    have hc' := hc
    rw [Bool.and_eq_true] at hc'
    obtain ⟨hcnn, hcuniq⟩ := hc'
    refine ⟨?_, ?_, ?_, ?_, ?_⟩
    · intro x hx
      rcases List.mem_cons.mp hx with rfl | hx'
      · exact hcnn
      · exact hall x hx'
    · refine List.nodup_cons.mpr ⟨?_, hnodup⟩
      intro hmem
      obtain ⟨x, hx, hxid⟩ := List.mem_map.mp hmem
      have hany : (t.rows.any (fun x => x.id ==
          (applyBaseDefaults fresh now row).id)) = false := by
        simpa using hcuniq
      rw [List.any_eq_false] at hany
      exact absurd (by simpa using hxid) (by simpa using hany x hx)
    · intro h
      simp [applyBaseDefaults, h]
    · intro tu now₂ rid f x hx
      obtain ⟨y, hy, hgy⟩ := List.mem_map.mp hx
      by_cases hid : (y.id == some rid) = true
      · right
        rw [if_pos hid] at hgy
        rw [← hgy]
        rfl
      · left
        rw [if_neg hid] at hgy
        rw [← hgy]
        exact hy
    · intro ot fr₂ now₂ orow ot' hins₂ y hy
      cases horg : orow.organization_id with
      | none =>
        simp only [insertOrgRow, horg] at hins₂
        exact Option.noConfusion hins₂
      | some oid =>
        simp only [insertOrgRow, horg] at hins₂
        by_cases hc₂ : (ot.organization_ids.contains oid &&
            !(ot.rows.any (fun x => x.base.id ==
              (applyBaseDefaults fr₂ now₂ orow.base).id))) = true
        · rw [if_pos hc₂] at hins₂
          injection hins₂ with h₂
          subst h₂
          rcases List.mem_cons.mp hy with rfl | hy'
          · right
            refine ⟨oid, rfl, ?_⟩
            have hc₂' := hc₂
            rw [Bool.and_eq_true] at hc₂'
            simpa using hc₂'.1
          · exact Or.inl hy'
        · rw [if_neg hc₂] at hins₂
          exact Option.noConfusion hins₂

/-- Witness for C10: inserting a fully unset row into an empty table. -/
theorem base_columns_invariants_witness :
    (∀ x ∈ (⟨[⟨some 1, some 2, some 2⟩]⟩ : BaseTable).rows,
        baseNotNull x = true) ∧
    (((⟨[⟨some 1, some 2, some 2⟩]⟩ : BaseTable).rows.map
        (fun x => x.id)).Nodup) ∧
    ((⟨none, none, none⟩ : BaseRow).id = none →
      (applyBaseDefaults 1 2 ⟨none, none, none⟩).id = some 1) ∧
    (∀ (tu : BaseTable) (now₂ rid : Nat) (f : BaseRow → BaseRow)
        (x : BaseRow), x ∈ (updateBase tu now₂ rid f).rows →
        x ∈ tu.rows ∨ x.modified_at = some now₂) ∧
    (∀ (ot : OrgTable) (fr₂ now₂ : Nat) (orow : OrgRow) (ot' : OrgTable),
        insertOrgRow ot fr₂ now₂ orow = some ot' →
        ∀ y ∈ ot'.rows, y ∈ ot.rows ∨
          ∃ oid, y.organization_id = some oid ∧
            oid ∈ ot.organization_ids) :=
  base_columns_invariants ⟨[]⟩ 1 2 ⟨none, none, none⟩
    ⟨[⟨some 1, some 2, some 2⟩]⟩ (by intro x hx; cases hx)
    (by simp) rfl

end Airweave
